import Mathlib

/-!
# App-Controller reconciliation: a shallow embedding

This file embeds the reconciliation core of the `my-app-controller`
Kubernetes operator: the `Reconcile` pass of `AppReconciler` together with
its helpers `deploymentEqual` and `serviceEqual`, and the data model from
`api/v1/app_types.go`.  The resource store (the Kubernetes API server) is
modelled as a function from (name, namespace) keys to optional resources;
fallibility of each store call is made explicit through an `ErrPlan` record
saying which calls fail transiently (absence is represented by `none` in
the store, matching the `IsNotFound` branch of the Go code).  A write log
records which write operations a pass actually performs.
-/

namespace AppCtrl

/-- `AppSpec` from `api/v1/app_types.go`: image, replicas, port. -/
structure AppSpec where
  image : String
  replicas : Int
  port : Int
deriving DecidableEq

/-- `AppStatus`: the observed replica count (the `Conditions` field is
never read or written by the controller and is omitted). -/
structure AppStatus where
  replicas : Int
deriving DecidableEq

/-- The `App` custom resource: identity plus spec and status. -/
structure App where
  name : String
  ns : String
  spec : AppSpec
  status : AppStatus
deriving DecidableEq

/-- A container port (`corev1.ContainerPort`, only the field the
controller touches). -/
structure ContainerPort where
  containerPort : Int
deriving DecidableEq

/-- A container (`corev1.Container`): name, image, ports. -/
structure Container where
  name : String
  image : String
  ports : List ContainerPort
deriving DecidableEq

/-- A pod template (`corev1.PodTemplateSpec`): labels and containers. -/
structure PodTemplateSpec where
  labels : List (String × String)
  containers : List Container
deriving DecidableEq

/-- `appsv1.DeploymentSpec` restricted to the fields this controller
builds or compares: replicas (the Go `*int32` is always set by this
controller, so it is embedded dereferenced), selector, template. -/
structure DeploymentSpec where
  replicas : Int
  selector : List (String × String)
  template : PodTemplateSpec
deriving DecidableEq

/-- A Deployment object: metadata plus spec.  `ownerRef` records the
ownership link (`SetControllerReference`) as the owning App's name. -/
structure Deployment where
  name : String
  ns : String
  labels : List (String × String)
  ownerRef : Option String
  spec : DeploymentSpec
deriving DecidableEq

/-- `corev1.ServicePort`: protocol, port, and target port (the Go code
stores `intstr.FromInt` and compares with `IntValue()`, so the numeric
value is embedded directly). -/
structure ServicePort where
  protocol : String
  port : Int
  targetPort : Int
deriving DecidableEq

/-- `corev1.ServiceSpec` restricted to the fields this controller builds
or compares: selector, ports, type. -/
structure ServiceSpec where
  selector : List (String × String)
  ports : List ServicePort
  type : String
deriving DecidableEq

/-- A Service object: metadata plus spec. -/
structure Service where
  name : String
  ns : String
  labels : List (String × String)
  ownerRef : Option String
  spec : ServiceSpec
deriving DecidableEq

/-- A pod condition (`corev1.PodCondition`): type and status strings. -/
structure PodCondition where
  condType : String
  status : String
deriving DecidableEq

/-- A pod: identity, labels, and status conditions. -/
structure Pod where
  name : String
  ns : String
  labels : List (String × String)
  conditions : List PodCondition
deriving DecidableEq

/-- Look a key up in an association list of labels. -/
def lookupLabel (ls : List (String × String)) (k : String) : Option String :=
  (ls.find? (fun kv => kv.1 == k)).map (fun kv => kv.2)

/-- `deploymentEqual` from the controller: the partial-equality policy for
Deployment specs.  Transcribed clause for clause from the Go function. -/
def deploymentEqual (a b : DeploymentSpec) : Bool :=
  if a.replicas ≠ b.replicas then false
  else if a.template.containers.length ≠ b.template.containers.length then false
  else
    match a.template.containers, b.template.containers with
    | ca :: _, cb :: _ =>
      if ca.image ≠ cb.image then false
      else if ca.ports.length ≠ cb.ports.length then false
      else
        match ca.ports, cb.ports with
        | pa :: _, pb :: _ => pa.containerPort == pb.containerPort
        | _, _ => true
    | _, _ => true

/-- `serviceEqual` from the controller: the partial-equality policy for
Service specs.  Transcribed clause for clause from the Go function. -/
def serviceEqual (a b : ServiceSpec) : Bool :=
  if a.type ≠ b.type then false
  else if a.ports.length ≠ b.ports.length then false
  else
    match a.ports, b.ports with
    | pa :: _, pb :: _ =>
      if pa.port ≠ pb.port ∨ pa.targetPort ≠ pb.targetPort ∨ pa.protocol ≠ pb.protocol then
        false
      else true
    | _, _ => true

/-- Step 2 of `Reconcile`: the desired Deployment derived from an App. -/
def desiredDeployment (app : App) : Deployment :=
  { name := app.name ++ "-deployment"
    ns := app.ns
    labels := [("app", app.name), ("controller", "app-controller")]
    ownerRef := none
    spec :=
      { replicas := app.spec.replicas
        selector := [("app", app.name)]
        template :=
          { labels := [("app", app.name)]
            containers :=
              [{ name := "app-container"
                 image := app.spec.image
                 ports := [{ containerPort := app.spec.port }] }] } } }

/-- Step 5 of `Reconcile`: the desired Service derived from an App. -/
def desiredService (app : App) : Service :=
  { name := app.name ++ "-service"
    ns := app.ns
    labels := [("app", app.name), ("controller", "app-controller")]
    ownerRef := none
    spec :=
      { selector := [("app", app.name)]
        ports := [{ protocol := "TCP", port := app.spec.port, targetPort := app.spec.port }]
        type := "ClusterIP" } }

/-- `ctrl.SetControllerReference` for a Deployment: record the ownership
link to the owning App. -/
def setOwnerDeployment (owner : String) (d : Deployment) : Deployment :=
  { d with ownerRef := some owner }

/-- `ctrl.SetControllerReference` for a Service. -/
def setOwnerService (owner : String) (v : Service) : Service :=
  { v with ownerRef := some owner }

/-- The resource store (Kubernetes API server), keyed by (name, namespace);
pods are held as a list, read back through a label-filtered list call. -/
structure StoreState where
  apps : String × String → Option App
  deployments : String × String → Option Deployment
  services : String × String → Option Service
  pods : List Pod

/-- Which store calls of one invocation fail transiently (a `true` flag
makes the corresponding call return a non-`IsNotFound` error in the Go
code).  Absence is not an error plan entry: it is `none` in the store. -/
structure ErrPlan where
  getAppErr : Bool
  setRefDepErr : Bool
  getDepErr : Bool
  createDepErr : Bool
  updateDepErr : Bool
  setRefSvcErr : Bool
  getSvcErr : Bool
  createSvcErr : Bool
  updateSvcErr : Bool
  listPodsErr : Bool
  statusUpdateErr : Bool
deriving DecidableEq

/-- The plan on which every store call succeeds. -/
def noErr : ErrPlan :=
  { getAppErr := false, setRefDepErr := false, getDepErr := false
    createDepErr := false, updateDepErr := false, setRefSvcErr := false
    getSvcErr := false, createSvcErr := false, updateSvcErr := false
    listPodsErr := false, statusUpdateErr := false }

/-- One write operation performed against the store. -/
inductive WriteOp where
  | createDeployment
  | updateDeployment
  | createService
  | updateService
  | updateAppStatus
deriving DecidableEq

/-- The outcome of one invocation: `success r` models returning a nil
error with `ctrl.Result{RequeueAfter := r}`; `failure` models returning a
non-nil error with an empty result. -/
inductive RecResult where
  | success (requeueAfter : Option Nat)
  | failure
deriving DecidableEq

/-- Store a Deployment at a key (used for both create and update). -/
def putDeployment (s : StoreState) (k : String × String) (d : Deployment) : StoreState :=
  { s with deployments := fun q => if q = k then some d else s.deployments q }

/-- Store a Service at a key (used for both create and update). -/
def putService (s : StoreState) (k : String × String) (v : Service) : StoreState :=
  { s with services := fun q => if q = k then some v else s.services q }

/-- `r.Status().Update`: replace the status of the App stored at a key. -/
def putAppStatus (s : StoreState) (k : String × String) (st : AppStatus) : StoreState :=
  { s with apps := fun q => if q = k then (s.apps q).map (fun a => { a with status := st })
                            else s.apps q }

/-- `r.List` with `InNamespace` and `MatchingLabels {app: name}`. -/
def listPods (pods : List Pod) (ns appName : String) : List Pod :=
  pods.filter (fun p => p.ns == ns && lookupLabel p.labels "app" == some appName)

/-- The inner loop of step 8: a pod counts as ready iff some condition has
type `Ready` and status `True` (the `break` makes it count once per pod). -/
def isPodReady (p : Pod) : Bool :=
  p.conditions.any (fun c => c.condType == "Ready" && c.status == "True")

/-- The ready-pod counter of step 8. -/
def readyCount (pods : List Pod) : Nat :=
  pods.countP isPodReady

/-- Steps 4 and above of `Reconcile` for the Deployment: fetch the child,
create it if absent, update it in place if drifted under
`deploymentEqual`, no-op otherwise.  Errors leave the store unchanged
(every failure point precedes the write taking effect). -/
def convergeDeployment (ep : ErrPlan) (s : StoreState) (d : Deployment) :
    Except Unit (StoreState × List WriteOp) :=
  if ep.getDepErr then .error ()
  else
    match s.deployments (d.name, d.ns) with
    | none =>
      if ep.createDepErr then .error ()
      else .ok (putDeployment s (d.name, d.ns) d, [.createDeployment])
    | some found =>
      if ¬ deploymentEqual found.spec d.spec then
        if ep.updateDepErr then .error ()
        else .ok (putDeployment s (d.name, d.ns) { found with spec := d.spec },
                  [.updateDeployment])
      else .ok (s, [])

/-- Step 7 of `Reconcile` for the Service, mirroring the Deployment path. -/
def convergeService (ep : ErrPlan) (s : StoreState) (v : Service) :
    Except Unit (StoreState × List WriteOp) :=
  if ep.getSvcErr then .error ()
  else
    match s.services (v.name, v.ns) with
    | none =>
      if ep.createSvcErr then .error ()
      else .ok (putService s (v.name, v.ns) v, [.createService])
    | some found =>
      if ¬ serviceEqual found.spec v.spec then
        if ep.updateSvcErr then .error ()
        else .ok (putService s (v.name, v.ns) { found with spec := v.spec },
                  [.updateService])
      else .ok (s, [])

/-- Step 8 of `Reconcile`: list the pods labelled `app=<name>` in the
App's namespace, count the ready ones, and write the count to
`App.status.replicas` only if it differs from the stored value.  `k` is
the key the App was fetched at. -/
def syncStatus (ep : ErrPlan) (s : StoreState) (k : String × String) (app : App) :
    Except Unit (StoreState × List WriteOp) :=
  if ep.listPodsErr then .error ()
  else
    let ready : Int := (readyCount (listPods s.pods app.ns app.name) : Int)
    if app.status.replicas ≠ ready then
      if ep.statusUpdateErr then .error ()
      else .ok (putAppStatus s k { replicas := ready }, [.updateAppStatus])
    else .ok (s, [])

/-- The `Reconcile` pass of `AppReconciler`, steps 1 to 9: fetch the App
(absence is terminal success with an empty result), converge the
Deployment, converge the Service, synchronise the status, and requeue
after 30 time units.  Every error aborts the pass at the step where it
occurred; earlier writes persist.  Returns the outcome, the post store,
and the log of writes performed. -/
def Reconcile (ep : ErrPlan) (s0 : StoreState) (reqName reqNs : String) :
    RecResult × StoreState × List WriteOp :=
  if ep.getAppErr then (.failure, s0, [])
  else
    match s0.apps (reqName, reqNs) with
    | none => (.success none, s0, [])
    | some app =>
      if ep.setRefDepErr then (.failure, s0, [])
      else
        match convergeDeployment ep s0 (setOwnerDeployment app.name (desiredDeployment app)) with
        | .error _ => (.failure, s0, [])
        | .ok (s1, w1) =>
          if ep.setRefSvcErr then (.failure, s1, w1)
          else
            match convergeService ep s1 (setOwnerService app.name (desiredService app)) with
            | .error _ => (.failure, s1, w1)
            | .ok (s2, w2) =>
              match syncStatus ep s2 (reqName, reqNs) app with
              | .error _ => (.failure, s2, w1 ++ w2)
              | .ok (s3, w3) => (.success (some 30), s3, w1 ++ w2 ++ w3)

/-! ## Spec-side formulations of the partial-equality policy

These two functions are written from the specification's wording, to be
compared with the transcriptions `deploymentEqual` and `serviceEqual`
above: replica count, container count, and — when at least one container
exists — first image, first port-list length, first port value (for the
Deployment); service type, port-list length, and — when both lists have
at least one port — first port number, target-port value, protocol (for
the Service).  No other field participates. -/

/-- Spec wording of the Deployment partial-equality policy. -/
def deploymentEqualSpec (a b : DeploymentSpec) : Bool :=
  a.replicas == b.replicas &&
  a.template.containers.length == b.template.containers.length &&
  (match a.template.containers.head?, b.template.containers.head? with
   | some ca, some cb =>
     ca.image == cb.image &&
     ca.ports.length == cb.ports.length &&
     (match ca.ports.head?, cb.ports.head? with
      | some pa, some pb => pa.containerPort == pb.containerPort
      | _, _ => true)
   | _, _ => true)

/-- Spec wording of the Service partial-equality policy. -/
def serviceEqualSpec (a b : ServiceSpec) : Bool :=
  a.type == b.type &&
  a.ports.length == b.ports.length &&
  (match a.ports.head?, b.ports.head? with
   | some pa, some pb =>
     pa.port == pb.port && pa.targetPort == pb.targetPort && pa.protocol == pb.protocol
   | _, _ => true)

/-! ## Helper lemmas -/

theorem deploymentEqual_eq_spec (a b : DeploymentSpec) :
    deploymentEqual a b = deploymentEqualSpec a b := by
  unfold deploymentEqual deploymentEqualSpec
  cases ha : a.template.containers with
  | nil =>
    cases hb : b.template.containers with
    | nil => rw [Bool.eq_iff_iff]; simp [ha, hb]
    | cons cb tb => simp [ha, hb]
  | cons ca ta =>
    cases hb : b.template.containers with
    | nil => simp [ha, hb]
    | cons cb tb =>
      cases hpa : ca.ports with
      | nil =>
        cases hpb : cb.ports with
        | nil => rw [Bool.eq_iff_iff]; simp [ha, hb, hpa, hpb]; tauto
        | cons pb tpb => rw [Bool.eq_iff_iff]; simp [ha, hb, hpa, hpb]
      | cons pa tpa =>
        cases hpb : cb.ports with
        | nil => rw [Bool.eq_iff_iff]; simp [ha, hb, hpa, hpb]
        | cons pb tpb => rw [Bool.eq_iff_iff]; simp [ha, hb, hpa, hpb]; tauto

theorem serviceEqual_eq_spec (a b : ServiceSpec) :
    serviceEqual a b = serviceEqualSpec a b := by
  unfold serviceEqual serviceEqualSpec
  cases ha : a.ports with
  | nil =>
    cases hb : b.ports with
    | nil => rw [Bool.eq_iff_iff]; simp [ha, hb]
    | cons pb tb => simp [ha, hb]
  | cons pa ta =>
    cases hb : b.ports with
    | nil => simp [ha, hb]
    | cons pb tb => rw [Bool.eq_iff_iff]; simp [ha, hb]; tauto

theorem deploymentEqual_refl (a : DeploymentSpec) : deploymentEqual a a = true := by
  unfold deploymentEqual
  cases ha : a.template.containers with
  | nil => simp [ha]
  | cons ca ta =>
    cases hpa : ca.ports with
    | nil => simp [ha, hpa]
    | cons pa tpa => simp [ha, hpa]

theorem serviceEqual_refl (a : ServiceSpec) : serviceEqual a a = true := by
  unfold serviceEqual
  cases ha : a.ports with
  | nil => simp [ha]
  | cons pa ta => simp [ha]

theorem desiredDeployment_congr (a b : App) (hn : a.name = b.name) (hns : a.ns = b.ns)
    (hs : a.spec = b.spec) : desiredDeployment a = desiredDeployment b := by
  simp [desiredDeployment, hn, hns, hs]

theorem desiredService_congr (a b : App) (hn : a.name = b.name) (hns : a.ns = b.ns)
    (hs : a.spec = b.spec) : desiredService a = desiredService b := by
  simp [desiredService, hn, hns, hs]

@[simp] theorem noErr_getAppErr : noErr.getAppErr = false := rfl
@[simp] theorem noErr_setRefDepErr : noErr.setRefDepErr = false := rfl
@[simp] theorem noErr_getDepErr : noErr.getDepErr = false := rfl
@[simp] theorem noErr_createDepErr : noErr.createDepErr = false := rfl
@[simp] theorem noErr_updateDepErr : noErr.updateDepErr = false := rfl
@[simp] theorem noErr_setRefSvcErr : noErr.setRefSvcErr = false := rfl
@[simp] theorem noErr_getSvcErr : noErr.getSvcErr = false := rfl
@[simp] theorem noErr_createSvcErr : noErr.createSvcErr = false := rfl
@[simp] theorem noErr_updateSvcErr : noErr.updateSvcErr = false := rfl
@[simp] theorem noErr_listPodsErr : noErr.listPodsErr = false := rfl
@[simp] theorem noErr_statusUpdateErr : noErr.statusUpdateErr = false := rfl

/-- Fetching the App at an absent key ends the pass successfully with an
empty result, the store untouched and no writes. -/
theorem reconcile_absent (ep : ErrPlan) (s : StoreState) (n ns : String)
    (h1 : ep.getAppErr = false) (h2 : s.apps (n, ns) = none) :
    Reconcile ep s n ns = (.success none, s, []) := by
  simp [Reconcile, h1, h2]

/-- When its three store calls succeed, converging the Deployment
touches nothing but the deployment table and leaves at the desired key a
deployment whose spec is `deploymentEqual` to the desired one. -/
theorem convergeDeployment_ok_of_flags (ep : ErrPlan) (s : StoreState) (d : Deployment)
    (hg : ep.getDepErr = false) (hc : ep.createDepErr = false)
    (hu : ep.updateDepErr = false) :
    ∃ s1 w1, convergeDeployment ep s d = .ok (s1, w1) ∧
      s1.apps = s.apps ∧ s1.services = s.services ∧ s1.pods = s.pods ∧
      ∃ d0, s1.deployments (d.name, d.ns) = some d0 ∧
        deploymentEqual d0.spec d.spec = true := by
  cases hf : s.deployments (d.name, d.ns) with
  | none =>
    refine ⟨putDeployment s (d.name, d.ns) d, [WriteOp.createDeployment], ?_, rfl, rfl, rfl,
      d, ?_, deploymentEqual_refl d.spec⟩
    · simp [convergeDeployment, hg, hc, hf]
    · simp [putDeployment]
  | some found =>
    cases heq : deploymentEqual found.spec d.spec with
    | true =>
      exact ⟨s, [], by simp [convergeDeployment, hg, hf, heq], rfl, rfl, rfl,
        found, hf, heq⟩
    | false =>
      refine ⟨putDeployment s (d.name, d.ns) { found with spec := d.spec },
        [WriteOp.updateDeployment], ?_, rfl, rfl, rfl,
        { found with spec := d.spec }, ?_, deploymentEqual_refl d.spec⟩
      · simp [convergeDeployment, hg, hu, hf, heq]
      · simp [putDeployment]

/-- Specialisation of `convergeDeployment_ok_of_flags` to the error-free
plan. -/
theorem convergeDeployment_noErr (s : StoreState) (d : Deployment) :
    ∃ s1 w1, convergeDeployment noErr s d = .ok (s1, w1) ∧
      s1.apps = s.apps ∧ s1.services = s.services ∧ s1.pods = s.pods ∧
      ∃ d0, s1.deployments (d.name, d.ns) = some d0 ∧
        deploymentEqual d0.spec d.spec = true :=
  convergeDeployment_ok_of_flags noErr s d rfl rfl rfl

/-- A Service converge step fails (and leaves the store unchanged) when
the write it decides to perform is set to fail: creation on an absent
child, update on a drifted one. -/
theorem convergeService_fails (ep : ErrPlan) (s : StoreState) (v : Service)
    (hg : ep.getSvcErr = false)
    (hfail : match s.services (v.name, v.ns) with
             | none => ep.createSvcErr = true
             | some f => serviceEqual f.spec v.spec = false ∧ ep.updateSvcErr = true) :
    convergeService ep s v = .error () := by
  cases hf : s.services (v.name, v.ns) with
  | none =>
    rw [hf] at hfail
    simp [convergeService, hg, hf, hfail]
  | some f =>
    rw [hf] at hfail
    simp [convergeService, hg, hf, hfail.1, hfail.2]

/-- With no injected errors, converging the Service always succeeds,
touches nothing but the service table, and leaves at the desired key a
service whose spec is `serviceEqual` to the desired one. -/
theorem convergeService_noErr (s : StoreState) (v : Service) :
    ∃ s1 w1, convergeService noErr s v = .ok (s1, w1) ∧
      s1.apps = s.apps ∧ s1.deployments = s.deployments ∧ s1.pods = s.pods ∧
      ∃ v0, s1.services (v.name, v.ns) = some v0 ∧
        serviceEqual v0.spec v.spec = true := by
  cases hf : s.services (v.name, v.ns) with
  | none =>
    refine ⟨putService s (v.name, v.ns) v, [WriteOp.createService], ?_, rfl, rfl, rfl,
      v, ?_, serviceEqual_refl v.spec⟩
    · simp [convergeService, noErr, hf]
    · simp [putService]
  | some found =>
    cases heq : serviceEqual found.spec v.spec with
    | true =>
      exact ⟨s, [], by simp [convergeService, noErr, hf, heq], rfl, rfl, rfl,
        found, hf, heq⟩
    | false =>
      refine ⟨putService s (v.name, v.ns) { found with spec := v.spec },
        [WriteOp.updateService], ?_, rfl, rfl, rfl,
        { found with spec := v.spec }, ?_, serviceEqual_refl v.spec⟩
      · simp [convergeService, noErr, hf, heq]
      · simp [putService]

/-- With no injected errors, synchronising the status always succeeds,
touches nothing but the App stored at the fetch key, and leaves there an
App with the same identity and spec whose stored replica count is the
ready-pod count. -/
theorem syncStatus_noErr (s : StoreState) (k : String × String) (app : App)
    (hk : s.apps k = some app) :
    ∃ s3 w3 app3, syncStatus noErr s k app = .ok (s3, w3) ∧
      s3.deployments = s.deployments ∧ s3.services = s.services ∧ s3.pods = s.pods ∧
      s3.apps k = some app3 ∧
      app3.name = app.name ∧ app3.ns = app.ns ∧ app3.spec = app.spec ∧
      app3.status.replicas = (readyCount (listPods s.pods app.ns app.name) : Int) := by
  by_cases hch : app.status.replicas = (readyCount (listPods s.pods app.ns app.name) : Int)
  · exact ⟨s, [], app, by simp [syncStatus, noErr, hch], rfl, rfl, rfl, hk,
      rfl, rfl, rfl, hch⟩
  · refine ⟨putAppStatus s k { replicas := (readyCount (listPods s.pods app.ns app.name) : Int) },
      [WriteOp.updateAppStatus],
      { app with status := { replicas := (readyCount (listPods s.pods app.ns app.name) : Int) } },
      ?_, rfl, rfl, rfl, ?_, rfl, rfl, rfl, rfl⟩
    · simp [syncStatus, noErr, hch]
    · simp [putAppStatus, hk]

/-- A Deployment converge step that finds a partially-equal child is a
no-op. -/
theorem convergeDeployment_done (s : StoreState) (d d0 : Deployment)
    (hd : s.deployments (d.name, d.ns) = some d0)
    (hde : deploymentEqual d0.spec d.spec = true) :
    convergeDeployment noErr s d = .ok (s, []) := by
  simp [convergeDeployment, noErr, hd, hde]

/-- A Service converge step that finds a partially-equal child is a
no-op. -/
theorem convergeService_done (s : StoreState) (v v0 : Service)
    (hv : s.services (v.name, v.ns) = some v0)
    (hve : serviceEqual v0.spec v.spec = true) :
    convergeService noErr s v = .ok (s, []) := by
  simp [convergeService, noErr, hv, hve]

/-- A status step whose ready count matches the stored value writes
nothing. -/
theorem syncStatus_done (s : StoreState) (k : String × String) (app : App)
    (hst : app.status.replicas = (readyCount (listPods s.pods app.ns app.name) : Int)) :
    syncStatus noErr s k app = .ok (s, []) := by
  simp [syncStatus, noErr, hst]

/-- One fully successful pass over a store holding the App: it succeeds
with a 30-unit requeue and leaves a store whose children at the derived
names are partially equal to the desired ones and whose stored App carries
the ready-pod count, its identity and spec unchanged. -/
theorem reconcile_noErr_present (s : StoreState) (n ns : String) (app : App)
    (hApp : s.apps (n, ns) = some app) :
    ∃ s3 w3, Reconcile noErr s n ns = (.success (some 30), s3, w3) ∧
      s3.pods = s.pods ∧
      (∃ app3, s3.apps (n, ns) = some app3 ∧
        app3.name = app.name ∧ app3.ns = app.ns ∧ app3.spec = app.spec ∧
        app3.status.replicas = (readyCount (listPods s.pods app.ns app.name) : Int)) ∧
      (∃ d0, s3.deployments (app.name ++ "-deployment", app.ns) = some d0 ∧
        deploymentEqual d0.spec (setOwnerDeployment app.name (desiredDeployment app)).spec = true) ∧
      (∃ v0, s3.services (app.name ++ "-service", app.ns) = some v0 ∧
        serviceEqual v0.spec (setOwnerService app.name (desiredService app)).spec = true) := by
  obtain ⟨s1, w1, h1, h1a, h1s, h1p, d0, h1d, h1de⟩ :=
    convergeDeployment_noErr s (setOwnerDeployment app.name (desiredDeployment app))
  obtain ⟨s2, w2, h2, h2a, h2d, h2p, v0, h2s, h2se⟩ :=
    convergeService_noErr s1 (setOwnerService app.name (desiredService app))
  have hk2 : s2.apps (n, ns) = some app := by rw [h2a, h1a, hApp]
  obtain ⟨s3, w3, app3, h3, h3d, h3s, h3p, h3k, hname, hns3, hspec, hstat⟩ :=
    syncStatus_noErr s2 (n, ns) app hk2
  refine ⟨s3, w1 ++ w2 ++ w3, ?_, ?_, ⟨app3, h3k, hname, hns3, hspec, ?_⟩,
    ⟨d0, ?_, h1de⟩, ⟨v0, ?_, h2se⟩⟩
  · simp [Reconcile, hApp, h1, h2, h3]
  · rw [h3p, h2p, h1p]
  · rw [hstat, h2p, h1p]
  · rw [h3d, h2d]; exact h1d
  · rw [h3s]; exact h2s

/-- A pass over an already-converged store is a pure no-op: it succeeds
with the 30-unit requeue, leaves the store untouched and performs zero
writes. -/
theorem reconcile_noErr_converged (s : StoreState) (n ns : String) (app : App)
    (hApp : s.apps (n, ns) = some app)
    (hd : ∃ d0, s.deployments (app.name ++ "-deployment", app.ns) = some d0 ∧
      deploymentEqual d0.spec (setOwnerDeployment app.name (desiredDeployment app)).spec = true)
    (hv : ∃ v0, s.services (app.name ++ "-service", app.ns) = some v0 ∧
      serviceEqual v0.spec (setOwnerService app.name (desiredService app)).spec = true)
    (hst : app.status.replicas = (readyCount (listPods s.pods app.ns app.name) : Int)) :
    Reconcile noErr s n ns = (.success (some 30), s, []) := by
  obtain ⟨d0, hd0, hde⟩ := hd
  obtain ⟨v0, hv0, hve⟩ := hv
  have h1 : convergeDeployment noErr s (setOwnerDeployment app.name (desiredDeployment app)) =
      .ok (s, []) :=
    convergeDeployment_done s _ d0 hd0 hde
  have h2 : convergeService noErr s (setOwnerService app.name (desiredService app)) =
      .ok (s, []) :=
    convergeService_done s _ v0 hv0 hve
  have h3 : syncStatus noErr s (n, ns) app = .ok (s, []) :=
    syncStatus_done s (n, ns) app hst
  simp [Reconcile, hApp, h1, h2, h3]

/-- What partial equality to the desired Deployment spec pins down: the
replica count, a single container, its image and its single port. -/
theorem deploymentEqual_desired_elim (a : DeploymentSpec) (app : App)
    (h : deploymentEqual a (desiredDeployment app).spec = true) :
    a.replicas = app.spec.replicas ∧
    ∃ c, a.template.containers = [c] ∧ c.image = app.spec.image ∧
      c.ports = [{ containerPort := app.spec.port }] := by
  rw [deploymentEqual_eq_spec] at h
  unfold deploymentEqualSpec desiredDeployment at h
  cases ha : a.template.containers with
  | nil => rw [ha] at h; simp at h
  | cons ca ta =>
    obtain ⟨cname, cimage, cports⟩ := ca
    rw [ha] at h
    cases cports with
    | nil => simp at h
    | cons pa tpa =>
      obtain ⟨x⟩ := pa
      simp at h
      obtain ⟨⟨hrep, hta⟩, ⟨himg, htpa⟩, hx⟩ := h
      subst hta htpa hx himg
      exact ⟨hrep, _, rfl, rfl, rfl⟩

/-- What partial equality to the desired Service spec pins down: a single
port entry carrying the App port as port and target port, protocol TCP,
and the ClusterIP type. -/
theorem serviceEqual_desired_elim (a : ServiceSpec) (app : App)
    (h : serviceEqual a (desiredService app).spec = true) :
    a.type = "ClusterIP" ∧
    a.ports = [{ protocol := "TCP", port := app.spec.port, targetPort := app.spec.port }] := by
  rw [serviceEqual_eq_spec] at h
  unfold serviceEqualSpec desiredService at h
  cases ha : a.ports with
  | nil => rw [ha] at h; simp at h
  | cons pa ta =>
    obtain ⟨p1, p2, p3⟩ := pa
    rw [ha] at h
    simp at h
    simp_all

/-! ## Concrete fixtures used by witnesses and counterexamples -/

/-- A concrete App: name `a`, image `nginx:1.0`, 3 replicas, port 8080. -/
def appA : App :=
  { name := "a", ns := "nsp"
    spec := { image := "nginx:1.0", replicas := 3, port := 8080 }
    status := { replicas := 0 } }

/-- The empty store. -/
def emptyStore : StoreState :=
  { apps := fun _ => none, deployments := fun _ => none
    services := fun _ => none, pods := [] }

/-- A store holding only `appA`. -/
def storeA : StoreState :=
  { emptyStore with apps := fun k => if k = ("a", "nsp") then some appA else none }

/-- An existing drifted Deployment for `appA`: wrong replica count, and a
selector, template labels, metadata labels all set by another actor. -/
def driftedDep : Deployment :=
  { name := "a-deployment", ns := "nsp"
    labels := [("extra", "label")]
    ownerRef := none
    spec :=
      { replicas := 5
        selector := [("team", "x")]
        template :=
          { labels := [("custom", "y")]
            containers :=
              [{ name := "app-container"
                 image := "nginx:1.0"
                 ports := [{ containerPort := 8080 }] }] } } }

/-- `storeA` with the drifted Deployment already present. -/
def storeDrift : StoreState :=
  { storeA with
    deployments := fun k => if k = ("a-deployment", "nsp") then some driftedDep else none }

/-- A pod carrying two `Ready`/`True` conditions. -/
def podWithDupReady : Pod :=
  { name := "p", ns := "nsp", labels := [("app", "a")]
    conditions := [{ condType := "Ready", status := "True" },
                   { condType := "Ready", status := "True" }] }

/-! ## The claims -/

/-- Claim C3: for every pair of Deployment specs, the partial-equality
predicate holds iff the replica counts match, the container counts match,
and, when at least one container exists, the first container's image, the
first container's port-list length and the first port's value all match;
no other field influences the result (the right-hand side reads no other
field). -/
theorem claim3_deploymentEqual_characterisation (a b : DeploymentSpec) :
    deploymentEqual a b = deploymentEqualSpec a b :=
  deploymentEqual_eq_spec a b

/-- Claim C4: for every pair of Service specs, the partial-equality
predicate holds iff the service types match, the port-list lengths match,
and, when both lists have at least one port, the first port's port number,
target-port value and protocol all match; no other field influences the
result (the right-hand side reads no other field). -/
theorem claim4_serviceEqual_characterisation (a b : ServiceSpec) :
    serviceEqual a b = serviceEqualSpec a b :=
  serviceEqual_eq_spec a b

/-- Claim C10: the ready count sums a 0-or-1 contribution per pod — a pod
with several `Ready`/`True` condition entries still contributes exactly
one — so it never exceeds the number of pods listed and the value written
to the status is never negative. -/
theorem claim10_ready_count_bounds (pods : List Pod) :
    readyCount pods ≤ pods.length ∧
    (∀ p l, readyCount (p :: l) = readyCount l + (if isPodReady p then 1 else 0)) ∧
    (0 : Int) ≤ (readyCount pods : Int) ∧
    readyCount [podWithDupReady] = 1 := by
  refine ⟨List.countP_le_length isPodReady, ?_, Int.ofNat_nonneg _, rfl⟩
  intro p l
  simp [readyCount, List.countP_cons]

/-- Claim C6: when the App fetch reports absence, the invocation returns
success with an empty result (so it does not schedule its own delayed
follow-up pass) and performs no write on the store. -/
theorem claim6_deletion_terminality (ep : ErrPlan) (s : StoreState) (n ns : String)
    (h1 : ep.getAppErr = false) (h2 : s.apps (n, ns) = none) :
    Reconcile ep s n ns = (RecResult.success none, s, []) :=
  reconcile_absent ep s n ns h1 h2

/-- Witness for C6: the empty store, no injected errors. -/
theorem claim6_witness :
    noErr.getAppErr = false ∧ emptyStore.apps ("a", "nsp") = none ∧
    Reconcile noErr emptyStore "a" "nsp" = (RecResult.success none, emptyStore, []) :=
  ⟨rfl, rfl, claim6_deletion_terminality noErr emptyStore "a" "nsp" rfl rfl⟩

/-- Claim C5: the status step computes the number of listed pods that
carry a `Ready`/`True` condition; it writes the status iff that count
differs from the stored value, and what it writes is exactly that count;
when they agree it performs no write and leaves the store unchanged. -/
theorem claim5_status_write_suppression (s : StoreState) (k : String × String) (app : App) :
    readyCount (listPods s.pods app.ns app.name) =
      ((listPods s.pods app.ns app.name).filter isPodReady).length ∧
    (app.status.replicas = (readyCount (listPods s.pods app.ns app.name) : Int) →
      syncStatus noErr s k app = .ok (s, [])) ∧
    (app.status.replicas ≠ (readyCount (listPods s.pods app.ns app.name) : Int) →
      syncStatus noErr s k app =
        .ok (putAppStatus s k
              { replicas := (readyCount (listPods s.pods app.ns app.name) : Int) },
            [WriteOp.updateAppStatus])) := by
  refine ⟨by simp [readyCount, List.countP_eq_length_filter],
    fun h => syncStatus_done s k app h, fun h => ?_⟩
  simp [syncStatus, h]

/-- `storeA` with one ready pod (which reports readiness twice). -/
def storePods : StoreState := { storeA with pods := [podWithDupReady] }

/-- Witness for C5: one ready pod against a stored count of 0 forces
exactly one status write carrying the computed count. -/
theorem claim5_witness :
    appA.status.replicas ≠ (readyCount (listPods storePods.pods appA.ns appA.name) : Int) ∧
    syncStatus noErr storePods ("a", "nsp") appA =
      .ok (putAppStatus storePods ("a", "nsp")
            { replicas := (readyCount (listPods storePods.pods appA.ns appA.name) : Int) },
          [WriteOp.updateAppStatus]) :=
  ⟨by decide, (claim5_status_write_suppression storePods ("a", "nsp") appA).2.2 (by decide)⟩

/-- Claim C2: idempotence — the first error-free pass succeeds, and a
second error-free pass over the store it leaves behind issues zero write
operations (no create, no update, no status update). -/
theorem claim2_idempotence (s : StoreState) (n ns : String) :
    (∃ r, (Reconcile noErr s n ns).1 = RecResult.success r) ∧
    (Reconcile noErr ((Reconcile noErr s n ns).2.1) n ns).2.2 = [] := by
  cases hApp : s.apps (n, ns) with
  | none =>
    have h := reconcile_absent noErr s n ns rfl hApp
    refine ⟨⟨none, by rw [h]⟩, ?_⟩
    simp [h]
  | some app =>
    obtain ⟨s3, w3, hrec, hpods, ⟨app3, h3k, hname, hns3, hspec, hstat⟩, hd, hv⟩ :=
      reconcile_noErr_present s n ns app hApp
    refine ⟨⟨some 30, by rw [hrec]⟩, ?_⟩
    have hd3 : ∃ d0, s3.deployments (app3.name ++ "-deployment", app3.ns) = some d0 ∧
        deploymentEqual d0.spec (setOwnerDeployment app3.name (desiredDeployment app3)).spec
          = true := by
      obtain ⟨d0, hd0, hde⟩ := hd
      refine ⟨d0, by rw [hname, hns3]; exact hd0, ?_⟩
      rw [hname, desiredDeployment_congr app3 app hname hns3 hspec]
      exact hde
    have hv3 : ∃ v0, s3.services (app3.name ++ "-service", app3.ns) = some v0 ∧
        serviceEqual v0.spec (setOwnerService app3.name (desiredService app3)).spec = true := by
      obtain ⟨v0, hv0, hve⟩ := hv
      refine ⟨v0, by rw [hname, hns3]; exact hv0, ?_⟩
      rw [hname, desiredService_congr app3 app hname hns3 hspec]
      exact hve
    have hst3 : app3.status.replicas =
        (readyCount (listPods s3.pods app3.ns app3.name) : Int) := by
      rw [hpods, hname, hns3]; exact hstat
    have h2 := reconcile_noErr_converged s3 n ns app3 h3k hd3 hv3 hst3
    rw [hrec]
    simp [h2]

/-- When the App is present, a pass that returns success necessarily ran
to the final return and so carries the 30-unit requeue; every earlier exit
on this path is a failure. -/
theorem reconcile_present_success_requeue (ep : ErrPlan) (s : StoreState) (n ns : String)
    (app : App) (hApp : s.apps (n, ns) = some app) (r : Option Nat) (s1 : StoreState)
    (w : List WriteOp) (hrec : Reconcile ep s n ns = (RecResult.success r, s1, w)) :
    r = some 30 := by
  unfold Reconcile at hrec
  rw [hApp] at hrec
  by_cases hg : ep.getAppErr = true
  · simp [hg] at hrec
  · simp only [hg, if_false, Bool.false_eq_true] at hrec
    by_cases h1 : ep.setRefDepErr = true
    · simp [h1] at hrec
    · simp only [h1, if_false, Bool.false_eq_true] at hrec
      cases hcd : convergeDeployment ep s (setOwnerDeployment app.name (desiredDeployment app)) with
      | error e => simp [hcd] at hrec
      | ok p =>
        obtain ⟨sd, wd⟩ := p
        rw [hcd] at hrec
        by_cases h2 : ep.setRefSvcErr = true
        · simp [h2] at hrec
        · simp only [h2, if_false, Bool.false_eq_true] at hrec
          cases hcs : convergeService ep sd (setOwnerService app.name (desiredService app)) with
          | error e => simp [hcs] at hrec
          | ok q =>
            obtain ⟨ss, ws⟩ := q
            rw [hcs] at hrec
            cases hst : syncStatus ep ss (n, ns) app with
            | error e => simp [hst] at hrec
            | ok t =>
              obtain ⟨st, wt⟩ := t
              simp [hst] at hrec
              simp_all

/-- Claim C7 (amended): a pass that finds the App and returns success
always schedules the next invocation after 30 time units, while the
absence early-exit reaches Done without scheduling any delayed
follow-up. -/
theorem claim7_requeue_policy (ep : ErrPlan) (s : StoreState) (n ns : String) :
    (∀ app r s1 w, s.apps (n, ns) = some app →
      Reconcile ep s n ns = (RecResult.success r, s1, w) → r = some 30) ∧
    (ep.getAppErr = false → s.apps (n, ns) = none →
      Reconcile ep s n ns = (RecResult.success none, s, [])) :=
  ⟨fun app r s1 w hApp hrec =>
      reconcile_present_success_requeue ep s n ns app hApp r s1 w hrec,
   fun h1 h2 => reconcile_absent ep s n ns h1 h2⟩

/-- Counterexample to C7 as stated: the pass over a store without the App
completes successfully (per the specification it reaches `Done` through
the absence early-exit) yet its result carries no 30-unit requeue. -/
theorem claim7_counterexample :
    (Reconcile noErr emptyStore "a" "nsp").1 = RecResult.success none ∧
    RecResult.success none ≠ RecResult.success (some 30) :=
  ⟨rfl, by decide⟩

/-- Witness for C7's amended theorem: the absence branch at the empty
store. -/
theorem claim7_witness :
    Reconcile noErr emptyStore "a" "nsp" = (RecResult.success none, emptyStore, []) :=
  (claim7_requeue_policy noErr emptyStore "a" "nsp").2 rfl rfl

/-- A drifted Deployment is updated by replacing the whole stored spec
with the desired one; the stored metadata is untouched. -/
theorem convergeDeployment_update (s : StoreState) (d found : Deployment)
    (hf : s.deployments (d.name, d.ns) = some found)
    (hne : deploymentEqual found.spec d.spec = false) :
    convergeDeployment noErr s d =
      .ok (putDeployment s (d.name, d.ns) { found with spec := d.spec },
           [WriteOp.updateDeployment]) := by
  simp [convergeDeployment, hf, hne]

/-- A drifted Service is updated by replacing the whole stored spec with
the desired one; the stored metadata is untouched. -/
theorem convergeService_update (s : StoreState) (v found : Service)
    (hf : s.services (v.name, v.ns) = some found)
    (hne : serviceEqual found.spec v.spec = false) :
    convergeService noErr s v =
      .ok (putService s (v.name, v.ns) { found with spec := v.spec },
           [WriteOp.updateService]) := by
  simp [convergeService, hf, hne]

/-- Counterexample to C1 as stated: in `storeDrift` the existing
Deployment carries the selector `team=x`, a spec field outside the
comparable subset of the partial-equality policy; the pass issues an
update, and after it the stored selector has been overwritten with the
desired `app=a` — a field outside the compared subset was not left
unchanged. -/
theorem claim1_counterexample :
    (storeDrift.deployments ("a-deployment", "nsp")).map (fun d => d.spec.selector)
      = some [("team", "x")] ∧
    (Reconcile noErr storeDrift "a" "nsp").2.2
      = [WriteOp.updateDeployment, WriteOp.createService] ∧
    ((Reconcile noErr storeDrift "a" "nsp").2.1.deployments ("a-deployment", "nsp")).map
      (fun d => d.spec.selector) = some [("app", "a")] := by
  refine ⟨rfl, ?_, ?_⟩ <;> decide

/-- Claim C1 (amended): when the Convergence Engine finds an existing
child whose spec is unequal under the partial-equality policy, the update
it issues replaces the child's entire specification with the desired
specification; metadata outside the spec (name, namespace, labels,
ownership link) is left unchanged, while spec fields outside the
comparable subset are overwritten along with the rest. -/
theorem claim1_update_replaces_spec (s : StoreState) (n ns : String) (app : App)
    (hApp : s.apps (n, ns) = some app) :
    (∀ found, s.deployments (app.name ++ "-deployment", app.ns) = some found →
      deploymentEqual found.spec (setOwnerDeployment app.name (desiredDeployment app)).spec
        = false →
      (Reconcile noErr s n ns).2.1.deployments (app.name ++ "-deployment", app.ns) =
        some { found with spec := (setOwnerDeployment app.name (desiredDeployment app)).spec }) ∧
    (∀ foundS, s.services (app.name ++ "-service", app.ns) = some foundS →
      serviceEqual foundS.spec (setOwnerService app.name (desiredService app)).spec = false →
      (Reconcile noErr s n ns).2.1.services (app.name ++ "-service", app.ns) =
        some { foundS with spec := (setOwnerService app.name (desiredService app)).spec }) := by
  constructor
  · intro found hf hne
    have h1 := convergeDeployment_update s
      (setOwnerDeployment app.name (desiredDeployment app)) found hf hne
    obtain ⟨s2, w2, h2, h2a, h2d, h2p, v0, h2s, h2se⟩ :=
      convergeService_noErr
        (putDeployment s
          ((setOwnerDeployment app.name (desiredDeployment app)).name,
            (setOwnerDeployment app.name (desiredDeployment app)).ns)
          { found with spec := (setOwnerDeployment app.name (desiredDeployment app)).spec })
        (setOwnerService app.name (desiredService app))
    have hk2 : s2.apps (n, ns) = some app := by rw [h2a]; exact hApp
    obtain ⟨s3, w3, app3, h3, h3d, h3s, h3p, h3k, hname, hns3, hspec, hstat⟩ :=
      syncStatus_noErr s2 (n, ns) app hk2
    have hrec : Reconcile noErr s n ns = (.success (some 30), s3, [WriteOp.updateDeployment] ++ w2 ++ w3) := by
      simp [Reconcile, hApp, h1, h2, h3]
    rw [hrec]
    rw [h3d, h2d]
    simp [putDeployment, setOwnerDeployment, desiredDeployment]
  · intro foundS hf hne
    obtain ⟨s1, w1, h1, h1a, h1s, h1p, d0, h1d, h1de⟩ :=
      convergeDeployment_noErr s (setOwnerDeployment app.name (desiredDeployment app))
    have hf1 : s1.services (app.name ++ "-service", app.ns) = some foundS := by
      rw [h1s]; exact hf
    have h2 := convergeService_update s1
      (setOwnerService app.name (desiredService app)) foundS hf1 hne
    have hk2 : (putService s1
        ((setOwnerService app.name (desiredService app)).name,
          (setOwnerService app.name (desiredService app)).ns)
        { foundS with spec := (setOwnerService app.name (desiredService app)).spec }).apps (n, ns)
        = some app := by
      show s1.apps (n, ns) = some app
      rw [h1a]; exact hApp
    obtain ⟨s3, w3, app3, h3, h3d, h3s, h3p, h3k, hname, hns3, hspec, hstat⟩ :=
      syncStatus_noErr _ (n, ns) app hk2
    have hrec : Reconcile noErr s n ns = (.success (some 30), s3, w1 ++ [WriteOp.updateService] ++ w3) := by
      simp [Reconcile, hApp, h1, h2, h3]
    rw [hrec]
    rw [h3s]
    simp [putService, setOwnerService, desiredService]

/-- Witness for C1's amended theorem, at the concrete drifted store: the
whole stored spec becomes the desired spec while the metadata (the
`extra=label` label, the absent owner reference) stays. -/
theorem claim1_witness :
    (Reconcile noErr storeDrift "a" "nsp").2.1.deployments ("a-deployment", "nsp") =
      some { driftedDep with spec := (setOwnerDeployment "a" (desiredDeployment appA)).spec } :=
  (claim1_update_replaces_spec storeDrift "a" "nsp" appA rfl).1 driftedDep rfl (by decide)

/-- Claim C8: when every Deployment-side store call succeeds but the
Service write (creation on absence, update on drift) fails transiently,
the pass reports failure, the App table — and hence the App status — is
exactly as before the pass, and the Deployment converged earlier in the
same pass persists in the resulting store. -/
theorem claim8_partial_failure_isolation (ep : ErrPlan) (s : StoreState) (n ns : String)
    (app : App) (hApp : s.apps (n, ns) = some app)
    (hga : ep.getAppErr = false) (hsd : ep.setRefDepErr = false)
    (hgd : ep.getDepErr = false) (hcd : ep.createDepErr = false)
    (hud : ep.updateDepErr = false) (hss : ep.setRefSvcErr = false)
    (hgs : ep.getSvcErr = false)
    (hfail : match s.services (app.name ++ "-service", app.ns) with
             | none => ep.createSvcErr = true
             | some f =>
                 serviceEqual f.spec (setOwnerService app.name (desiredService app)).spec
                   = false ∧ ep.updateSvcErr = true) :
    ∃ s1 w1, Reconcile ep s n ns = (RecResult.failure, s1, w1) ∧
      s1.apps = s.apps ∧
      (∃ d0, s1.deployments (app.name ++ "-deployment", app.ns) = some d0 ∧
        deploymentEqual d0.spec (setOwnerDeployment app.name (desiredDeployment app)).spec
          = true) := by
  obtain ⟨s1, w1, h1, h1a, h1s, h1p, d0, h1d, h1de⟩ :=
    convergeDeployment_ok_of_flags ep s (setOwnerDeployment app.name (desiredDeployment app))
      hgd hcd hud
  have hfail1 : match s1.services (app.name ++ "-service", app.ns) with
      | none => ep.createSvcErr = true
      | some f =>
          serviceEqual f.spec (setOwnerService app.name (desiredService app)).spec
            = false ∧ ep.updateSvcErr = true := by
    rw [h1s]; exact hfail
  have h2 : convergeService ep s1 (setOwnerService app.name (desiredService app))
      = .error () :=
    convergeService_fails ep s1 (setOwnerService app.name (desiredService app)) hgs hfail1
  refine ⟨s1, w1, ?_, h1a, d0, h1d, h1de⟩
  simp [Reconcile, hga, hApp, hsd, h1, hss, h2]

/-- The error plan in which only the Service creation fails. -/
def svcCreateFailPlan : ErrPlan := { noErr with createSvcErr := true }

/-- Witness for C8: `storeA` holds only the App, Service creation is set
to fail; the pass fails, the App table is untouched and the Deployment
created in the same pass is present and converged. -/
theorem claim8_witness :
    ∃ s1 w1, Reconcile svcCreateFailPlan storeA "a" "nsp" = (RecResult.failure, s1, w1) ∧
      s1.apps = storeA.apps ∧
      (∃ d0, s1.deployments ("a-deployment", "nsp") = some d0 ∧
        deploymentEqual d0.spec (setOwnerDeployment "a" (desiredDeployment appA)).spec
          = true) :=
  claim8_partial_failure_isolation svcCreateFailPlan storeA "a" "nsp" appA
    rfl rfl rfl rfl rfl rfl rfl rfl rfl

/-- Claim C9: the desired children derived from an App named `N` are
named `N-deployment` and `N-service` and both carry the label `app=N`;
after one successful pass over a store holding the App, the stored
Deployment carries the App's replica count and a container with the App's
image exposing the App's port, and the stored Service carries exactly one
port entry with port = target-port = the App's port and protocol TCP. -/
theorem claim9_naming_and_convergence (s : StoreState) (n ns : String) (app : App)
    (hApp : s.apps (n, ns) = some app) :
    (desiredDeployment app).name = app.name ++ "-deployment" ∧
    (desiredService app).name = app.name ++ "-service" ∧
    lookupLabel (desiredDeployment app).labels "app" = some app.name ∧
    lookupLabel (desiredService app).labels "app" = some app.name ∧
    (∃ d0, (Reconcile noErr s n ns).2.1.deployments (app.name ++ "-deployment", app.ns)
        = some d0 ∧
      d0.spec.replicas = app.spec.replicas ∧
      (∃ c, d0.spec.template.containers = [c] ∧ c.image = app.spec.image ∧
        c.ports = [{ containerPort := app.spec.port }])) ∧
    (∃ v0, (Reconcile noErr s n ns).2.1.services (app.name ++ "-service", app.ns)
        = some v0 ∧
      v0.spec.ports
        = [{ protocol := "TCP", port := app.spec.port, targetPort := app.spec.port }]) := by
  obtain ⟨s3, w3, hrec, hpods, happ3, hd, hv⟩ := reconcile_noErr_present s n ns app hApp
  refine ⟨rfl, rfl, rfl, rfl, ?_, ?_⟩
  · obtain ⟨d0, hd0, hde⟩ := hd
    obtain ⟨hrep, c, hc, hcimg, hcports⟩ := deploymentEqual_desired_elim d0.spec app hde
    refine ⟨d0, ?_, hrep, c, hc, hcimg, hcports⟩
    rw [hrec]
    exact hd0
  · obtain ⟨v0, hv0, hve⟩ := hv
    obtain ⟨hty, hports⟩ := serviceEqual_desired_elim v0.spec app hve
    refine ⟨v0, ?_, hports⟩
    rw [hrec]
    exact hv0

/-- Witness for C9 at the concrete `storeA`. -/
theorem claim9_witness :
    (desiredDeployment appA).name = "a" ++ "-deployment" ∧
    (desiredService appA).name = "a" ++ "-service" ∧
    lookupLabel (desiredDeployment appA).labels "app" = some "a" ∧
    lookupLabel (desiredService appA).labels "app" = some "a" ∧
    (∃ d0, (Reconcile noErr storeA "a" "nsp").2.1.deployments ("a-deployment", "nsp")
        = some d0 ∧
      d0.spec.replicas = appA.spec.replicas ∧
      (∃ c, d0.spec.template.containers = [c] ∧ c.image = appA.spec.image ∧
        c.ports = [{ containerPort := appA.spec.port }])) ∧
    (∃ v0, (Reconcile noErr storeA "a" "nsp").2.1.services ("a-service", "nsp")
        = some v0 ∧
      v0.spec.ports
        = [{ protocol := "TCP", port := appA.spec.port, targetPort := appA.spec.port }]) :=
  claim9_naming_and_convergence storeA "a" "nsp" appA rfl

end AppCtrl
